import Mathlib

/-!
Verification of the file-backed election store in
src/k8s_elections/models/meta.py (classes Meta and Election).

Conventions of the shallow embedding:

* Filesystem paths are lists of path components; os.path.join is list
  append. Keys and file names are assumed slash-free, so the Python
  expression path.split of the joined string taking the final piece is
  the last component of the list.
* Python dicts are association lists with insert-or-update assignment
  (alistSet) and first-match lookup (alistGet); insertion order is the
  list order, matching dict iteration order.
* Python exceptions are an error value: functions that the source lets
  die with an exception return Except, and in-place mutation is explicit
  state passing, so a loop that dies midway returns the partially
  mutated state together with the error it raised.
* External collaborators per the spec (YAML reader, Markdown renderer,
  directory listing) are the fields of FS; the SQL reconciler
  sync_db_with_meta is an external collaborator whose log is out of
  scope and is omitted from the embedding. The candidate Markdown
  utilities (extract_candidate_info, extract_candidate_description,
  the text form of renderMD) are repository code not present under
  src/ and are taken as opaque function parameters.
* Wall-clock time is a Nat parameter now.
-/

namespace Elekto

/-- A field value of a record: a YAML scalar or rendered text. -/
inductive Value where
  | str : String → Value
  | nat : Nat → Value
deriving DecidableEq

/-- A record: a Python dict from field name to value, in insertion order. -/
abbrev Record := List (String × Value)

/-- The error taxonomy of the source: F.abort(404) at the API boundary,
a missing file for the YAML reader, malformed YAML, a Python KeyError
for a missing dict field, and an IO failure when opening a file. -/
inductive MetaError where
  | abort404
  | fileNotFound
  | parseError
  | keyError (field : String)
  | ioError
deriving DecidableEq

/-- Python dict lookup, d.get(k): first matching key. -/
def alistGet {α : Type} : List (String × α) → String → Option α
  | [], _ => none
  | (k, v) :: rest, key => if k = key then some v else alistGet rest key

/-- Python dict assignment d[k] = v: update in place if present
(keeping the position), else append. -/
def alistSet {α : Type} : List (String × α) → String → α → List (String × α)
  | [], key, v => [(key, v)]
  | (k, w) :: rest, key, v =>
    if k = key then (key, v) :: rest else (k, w) :: alistSet rest key v

/-- Whether an Except value is a success. -/
def exceptOk {ε α : Type} : Except ε α → Bool
  | .ok _ => true
  | .error _ => false

/-- The external filesystem and file-format collaborators, per spec
section 6: directory listing, directory test, the YAML reader
(utils.parse_yaml_from_file: fileNotFound when the path is absent,
parseError when malformed), the path form of the Markdown renderer
(utils.renderMD on a path: empty string when the file is absent), and
raw file reading (open().read(): none when the path is absent). -/
structure FS where
  listdir : List String → List String
  isdir : List String → Bool
  parseYaml : List String → Except MetaError Record
  renderMD : List String → String
  readFile : List String → Option String

/-- The mutable state of an Election backend: self.store (dict from key
to record) and self.keys (the known keys). -/
structure ElectionStore where
  store : List (String × Record)
  keys : List String
deriving DecidableEq

/-- Last component of a component list; the Python idiom
path.split of the slash taking index -1, with the empty string for the
empty path. -/
def lastComponent : List String → String
  | [] => ""
  | [x] => x
  | _ :: rest => lastComponent rest

/-- Read a Nat-valued field, defaulting to 0. Helper for the modelled
status computation. -/
def natField (e : Record) (f : String) : Nat :=
  match alistGet e f with
  | some (Value.nat n) => n
  | _ => 0

/-- Modelled from the spec: utils.check_election_status is repository
code not present under src/. Per spec section 4.2 the status is a pure
function of the current time and the start_time and end_time
boundaries of the record: UPCOMING when now < start_time, ONGOING when
start_time ≤ now ≤ end_time, ENDED when now > end_time. The spec does
not constrain records without numeric boundaries; missing boundaries
default to 0 here, and the claims only concern well-formed ones. -/
def check_election_status (now : Nat) (e : Record) : String :=
  if now < natField e "start_time" then "UPCOMING"
  else if now ≤ natField e "end_time" then "ONGOING"
  else "ENDED"

/-- Election.build_election_from_yaml (meta.py lines 196 to 221): parse
path/election.yaml, then set status, key (the last path component),
description and results, in that order. -/
def build_election_from_yaml (fs : FS) (now : Nat) (path : List String) :
    Except MetaError Record :=
  match fs.parseYaml (path ++ ["election.yaml"]) with
  | .error e => .error e
  | .ok election =>
      .ok (alistSet (alistSet (alistSet
            (alistSet election "status" (Value.str (check_election_status now election)))
            "key" (Value.str (lastComponent path)))
            "description" (Value.str (fs.renderMD (path ++ ["election_desc.md"]))))
            "results" (Value.str (fs.renderMD (path ++ ["results.md"]))))

/-- Election.fallback (meta.py lines 181 to 194): build from the path
self._path/key/election.yaml. Note the source passes the yaml file path
to build_election_from_yaml, which appends another election.yaml
component itself. -/
def fallback (fs : FS) (now : Nat) (basePath : List String) (key : String) :
    Except MetaError Record :=
  build_election_from_yaml fs now (basePath ++ [key, "election.yaml"])

/-- Election.update_keys (meta.py lines 144 to 146): the subdirectories
of self._path, replacing self.keys wholesale. -/
def update_keys (fs : FS) (basePath : List String) : List String :=
  (fs.listdir basePath).filter (fun k => fs.isdir (basePath ++ [k]))

/-- The loop body of Election.query (meta.py lines 175 to 177):
for e in keys, self.store[e] = build_election_from_yaml(path/e). The
store is mutated entry by entry; when a build raises, the loop stops
and the partially mutated store is what remains, paired with the
error. -/
def queryLoop (fs : FS) (now : Nat) (basePath : List String) :
    List String → List (String × Record) → List (String × Record) × Option MetaError
  | [], s => (s, none)
  | e :: rest, s =>
    match build_election_from_yaml fs now (basePath ++ [e]) with
    | .error err => (s, some err)
    | .ok r => queryLoop fs now basePath rest (alistSet s e r)

/-- Election.query (meta.py lines 167 to 179): populate self.store over
self.keys; self.keys itself is untouched. -/
def query (fs : FS) (now : Nat) (basePath : List String) (st : ElectionStore) :
    ElectionStore × Option MetaError :=
  match queryLoop fs now basePath st.keys st.store with
  | (s, e) => ({ store := s, keys := st.keys }, e)

/-- Election.update_store (meta.py lines 148 to 165): run git clone or
git pull through os.system, then update_keys, then query, then the SQL
reconciliation. The embedding receives the post-fetch filesystem and
the fetch exit status as inputs; the source discards the os.system
return value, so the gitFetchOk parameter is unused, exactly as in the
source. The SQL reconciler sync_db_with_meta is an external
collaborator and its log is omitted. -/
def update_store (fs : FS) (gitFetchOk : Bool) (now : Nat) (basePath : List String)
    (st : ElectionStore) : ElectionStore × Option MetaError :=
  query fs now basePath { st with keys := update_keys fs basePath }

/-- Meta.all (meta.py lines 84 to 91): every value of self.store in
dict order. -/
def all (st : ElectionStore) : List Record :=
  st.store.map (fun p => p.2)

/-- The comprehension of Meta.where (meta.py lines 93 to 101):
[r for r in self.all() if r[key] == value]. The subscript r[key] raises
KeyError when the field is absent, which aborts the whole
comprehension. -/
def whereLoop (field : String) (v : Value) : List Record → Except MetaError (List Record)
  | [] => .ok []
  | r :: rest =>
    match alistGet r field with
    | none => .error (.keyError field)
    | some w =>
      match whereLoop field v rest with
      | .error e => .error e
      | .ok tail => .ok (if w = v then r :: tail else tail)

/-- Meta.where (meta.py lines 93 to 101). -/
def where_ (st : ElectionStore) (field : String) (v : Value) :
    Except MetaError (List Record) :=
  whereLoop field v (all st)

/-- The Boolean match used to describe the subset where_ returns on
success: the record has the field and it equals the value. -/
def matchesField (field : String) (v : Value) (r : Record) : Bool :=
  match alistGet r field with
  | some w => decide (w = v)
  | none => false

/-- Meta.get (meta.py lines 103 to 120): abort 404 when the key is not
in self.keys; return the stored record when present; otherwise fall
back. The source never assigns to self.keys or self.store here, so
every successful path returns the input state unchanged, made explicit
by the state component of the result. -/
def get (fs : FS) (now : Nat) (basePath : List String) (st : ElectionStore)
    (key : String) : Except MetaError (Record × ElectionStore) :=
  if key ∉ st.keys then
    .error .abort404
  else
    match alistGet st.store key with
    | some r => .ok (r, st)
    | none =>
      match fallback fs now basePath key with
      | .ok r => .ok (r, st)
      | .error e => .error e

/-- needle is a leading piece of hay. -/
def leadsWith : List Char → List Char → Bool
  | _, [] => true
  | [], _ :: _ => false
  | a :: hay, b :: nd => (a == b) && leadsWith hay nd

/-- needle occurs somewhere in hay. -/
def hasSubL (needle : List Char) : List Char → Bool
  | [] => needle.isEmpty
  | c :: rest => leadsWith (c :: rest) needle || hasSubL needle rest

/-- The Python substring test: needle in hay. -/
def containsSub (hay needle : String) : Bool :=
  hasSubL needle.toList hay.toList

/-- The loop of Election.candidates (meta.py lines 248 to 258): for
every listed file name containing the substring candidate, read the
file, parse it with the (opaque) utils.extract_candidate_info, and set
the key field to the parsed ID field before collecting. A missing file
is an IO failure; a parse result without ID raises KeyError. -/
def candidatesLoop (fs : FS) (extract : String → Record) (basePath : List String)
    (eid : String) : List String → Except MetaError (List Record)
  | [] => .ok []
  | f :: files =>
    match containsSub f "candidate" with
    | false => candidatesLoop fs extract basePath eid files
    | true =>
      match fs.readFile (basePath ++ [eid, f]) with
      | none => .error .ioError
      | some md =>
        match alistGet (extract md) "ID" with
        | none => .error (.keyError "ID")
        | some idv =>
          match candidatesLoop fs extract basePath eid files with
          | .error e => .error e
          | .ok rest => .ok (alistSet (extract md) "key" idv :: rest)

/-- Election.candidates (meta.py lines 238 to 259). -/
def candidates (fs : FS) (extract : String → Record) (basePath : List String)
    (eid : String) : Except MetaError (List Record) :=
  candidatesLoop fs extract basePath eid (fs.listdir (basePath ++ [eid]))

/-- Election.candidate (meta.py lines 261 to 283): abort 404 when
self._path/eid/candidate-cid.md does not exist; otherwise parse the
file with the opaque utils.extract_candidate_info and set key,
election_key, and description (the text form of utils.renderMD applied
to utils.extract_candidate_description of the file, both opaque). -/
def candidate (fs : FS) (extract : String → Record)
    (renderText : String → Bool → String) (extractDesc : String → String)
    (basePath : List String) (eid cid : String) : Except MetaError Record :=
  match fs.readFile (basePath ++ [eid, "candidate-" ++ cid ++ ".md"]) with
  | none => .error .abort404
  | some md =>
    .ok (alistSet (alistSet (alistSet (extract md)
          "key" (Value.str cid))
          "election_key" (Value.str eid))
          "description" (Value.str (renderText (extractDesc md) false)))

/-! ### Concrete fixtures

Concrete filesystems, stores and parsers used to evaluate the
definitions at specific inputs. -/

/-- The parsed YAML of a small election definition file. -/
def yamlE1 : Record := [("start_time", Value.nat 1), ("end_time", Value.nat 2)]

/-- A filesystem whose elections directory holds exactly the
subdirectory e1 with a valid e1/election.yaml and no Markdown files. -/
def fsC1 : FS :=
  { listdir := fun _ => ["e1"]
    isdir := fun _ => true
    parseYaml := fun p =>
      if p = ["elections", "e1", "election.yaml"] then .ok yamlE1 else .error .fileNotFound
    renderMD := fun _ => ""
    readFile := fun _ => none }

/-- The record build_election_from_yaml produces for fsC1 at
path [elections, e1] with now = 0. -/
def builtE1 : Record :=
  [("start_time", Value.nat 1), ("end_time", Value.nat 2),
   ("status", Value.str "UPCOMING"), ("key", Value.str "e1"),
   ("description", Value.str ""), ("results", Value.str "")]

/-- A stale record held for a key that the directory listing no longer
contains. -/
def rOld : Record := [("status", Value.str "ENDED")]

/-- A store populated before a sync, holding the key old that is absent
from the fresh directory listing of fsC1. -/
def stC4 : ElectionStore := { store := [("old", rOld)], keys := ["old"] }

/-- A filesystem where election a parses fine and election b has
malformed YAML. -/
def fsC5 : FS :=
  { listdir := fun _ => ["a", "b"]
    isdir := fun _ => true
    parseYaml := fun p =>
      if p = ["elections", "a", "election.yaml"] then .ok yamlE1
      else if p = ["elections", "b", "election.yaml"] then .error .parseError
      else .error .fileNotFound
    renderMD := fun _ => ""
    readFile := fun _ => none }

/-- A store about to refresh over keys a and b, records still empty. -/
def stC5 : ElectionStore := { store := [], keys := ["a", "b"] }

/-- The record build_election_from_yaml produces for fsC5 at
path [elections, a] with now = 0. -/
def rA5 : Record :=
  [("start_time", Value.nat 1), ("end_time", Value.nat 2),
   ("status", Value.str "UPCOMING"), ("key", Value.str "a"),
   ("description", Value.str ""), ("results", Value.str "")]

/-- A store whose records all carry the field a. -/
def stC3w : ElectionStore :=
  { store := [("r1", [("a", Value.str "x")]), ("r2", [("a", Value.str "y")])]
    keys := [] }

/-- A store holding one record that lacks the field b. -/
def stC3c : ElectionStore :=
  { store := [("r1", [("a", Value.str "x")])], keys := [] }

/-- A store whose records hold the key e1 while known keys do not. -/
def stC7 : ElectionStore := { store := [("e1", builtE1)], keys := [] }

/-- A store that knows the key e1 but has no record for it. -/
def stC8 : ElectionStore := { store := [], keys := ["e1"] }

/-- A record with numeric boundaries 5 and 10. -/
def e6W : Record := [("start_time", Value.nat 5), ("end_time", Value.nat 10)]

/-- A concrete stand-in for the opaque utils.extract_candidate_info:
the ID field is the whole file content. -/
def extractById : String → Record := fun md => [("ID", Value.str md)]

/-- An election directory with exactly candidate-1.md, candidate-2.md
and notes.md, the candidate files declaring IDs 1 and 2. -/
def fsC9w : FS :=
  { listdir := fun _ => ["candidate-1.md", "candidate-2.md", "notes.md"]
    isdir := fun _ => false
    parseYaml := fun _ => .error .fileNotFound
    renderMD := fun _ => ""
    readFile := fun p =>
      if p = ["elections", "e1", "candidate-1.md"] then some "1"
      else if p = ["elections", "e1", "candidate-2.md"] then some "2"
      else none }

/-- The same directory layout, but candidate-1.md declares the ID zzz
instead of the ID matching its file name. -/
def fsC9c : FS :=
  { listdir := fun _ => ["candidate-1.md", "candidate-2.md", "notes.md"]
    isdir := fun _ => false
    parseYaml := fun _ => .error .fileNotFound
    renderMD := fun _ => ""
    readFile := fun p =>
      if p = ["elections", "e1", "candidate-1.md"] then some "zzz"
      else if p = ["elections", "e1", "candidate-2.md"] then some "2"
      else none }

/-- A concrete stand-in for the opaque text form of utils.renderMD. -/
def rTextW : String → Bool → String := fun t _ => t

/-- A concrete stand-in for the opaque
utils.extract_candidate_description. -/
def descW : String → String := fun md => md

/-- A filesystem holding exactly the file
elections/e1/candidate-3.md. -/
def fsC10 : FS :=
  { listdir := fun _ => []
    isdir := fun _ => false
    parseYaml := fun _ => .error .fileNotFound
    renderMD := fun _ => ""
    readFile := fun p =>
      if p = ["elections", "e1", "candidate-3.md"] then some "md3" else none }

/-- The record candidate produces for fsC10 with the concrete
collaborators above. -/
def rC10 : Record :=
  [("ID", Value.str "md3"), ("key", Value.str "3"),
   ("election_key", Value.str "e1"), ("description", Value.str "md3")]

/-! ### Helper lemmas -/

theorem alistGet_set_self {α : Type} (l : List (String × α)) (k : String) (v : α) :
    alistGet (alistSet l k v) k = some v := by
  induction l with
  | nil => simp [alistGet, alistSet]
  | cons p rest ih =>
    obtain ⟨k2, w⟩ := p
    by_cases h : k2 = k
    · simp [alistSet, alistGet, h]
    · simp [alistSet, alistGet, h, ih]

theorem alistGet_set_ne {α : Type} (l : List (String × α)) (k k2 : String) (v : α)
    (h : k2 ≠ k) : alistGet (alistSet l k v) k2 = alistGet l k2 := by
  have hnk : ¬ k = k2 := fun hh => h hh.symm
  induction l with
  | nil => simp [alistGet, alistSet, hnk]
  | cons p rest ih =>
    obtain ⟨k3, w⟩ := p
    by_cases h3 : k3 = k
    · subst h3
      simp [alistSet, alistGet, hnk]
    · simp [alistSet, alistGet, h3, ih]

theorem query_fst_store (fs : FS) (now : Nat) (bp : List String) (st : ElectionStore) :
    (query fs now bp st).1.store = (queryLoop fs now bp st.keys st.store).1 := rfl

theorem query_fst_keys (fs : FS) (now : Nat) (bp : List String) (st : ElectionStore) :
    (query fs now bp st).1.keys = st.keys := rfl

theorem query_snd (fs : FS) (now : Nat) (bp : List String) (st : ElectionStore) :
    (query fs now bp st).2 = (queryLoop fs now bp st.keys st.store).2 := rfl

theorem update_store_fst_store (fs : FS) (g : Bool) (now : Nat) (bp : List String)
    (st : ElectionStore) :
    (update_store fs g now bp st).1.store =
      (queryLoop fs now bp (update_keys fs bp) st.store).1 := rfl

theorem update_store_fst_keys (fs : FS) (g : Bool) (now : Nat) (bp : List String)
    (st : ElectionStore) :
    (update_store fs g now bp st).1.keys = update_keys fs bp := rfl

theorem update_store_snd (fs : FS) (g : Bool) (now : Nat) (bp : List String)
    (st : ElectionStore) :
    (update_store fs g now bp st).2 =
      (queryLoop fs now bp (update_keys fs bp) st.store).2 := rfl

theorem queryLoop_notMem (fs : FS) (now : Nat) (bp : List String) (k : String) :
    ∀ (l : List String) (s : List (String × Record)), k ∉ l →
      alistGet (queryLoop fs now bp l s).1 k = alistGet s k := by
  intro l
  induction l with
  | nil => intro s _; rfl
  | cons e rest ih =>
    intro s h
    have hne : k ≠ e := fun hh => h (hh ▸ List.mem_cons_self e rest)
    have hkr : k ∉ rest := fun hh => h (List.mem_cons_of_mem e hh)
    cases hb : build_election_from_yaml fs now (bp ++ [e]) with
    | error err => simp only [queryLoop, hb]
    | ok r =>
      simp only [queryLoop, hb]
      rw [ih (alistSet s e r) hkr, alistGet_set_ne s e k r hne]

theorem queryLoop_no_error (fs : FS) (now : Nat) (bp : List String) :
    ∀ (l : List String) (s : List (String × Record)),
      (∀ e ∈ l, exceptOk (build_election_from_yaml fs now (bp ++ [e])) = true) →
      (queryLoop fs now bp l s).2 = none := by
  intro l
  induction l with
  | nil => intro s _; rfl
  | cons e rest ih =>
    intro s h
    have he := h e (List.mem_cons_self e rest)
    cases hb : build_election_from_yaml fs now (bp ++ [e]) with
    | error err => rw [hb] at he; simp [exceptOk] at he
    | ok r =>
      simp only [queryLoop, hb]
      exact ih (alistSet s e r) (fun x hx => h x (List.mem_cons_of_mem e hx))

theorem queryLoop_mem_ok (fs : FS) (now : Nat) (bp : List String) (k : String) (r : Record)
    (hr : build_election_from_yaml fs now (bp ++ [k]) = .ok r) :
    ∀ (l : List String) (s : List (String × Record)),
      (queryLoop fs now bp l s).2 = none → k ∈ l →
      alistGet (queryLoop fs now bp l s).1 k = some r := by
  intro l
  induction l with
  | nil => intro s _ hk; cases hk
  | cons e rest ih =>
    intro s hnone hk
    cases hb : build_election_from_yaml fs now (bp ++ [e]) with
    | error err =>
      simp only [queryLoop, hb] at hnone
      cases hnone
    | ok re =>
      simp only [queryLoop, hb] at hnone ⊢
      by_cases hkr : k ∈ rest
      · exact ih (alistSet s e re) hnone hkr
      · have hke : k = e := by
          rcases List.mem_cons.mp hk with hx | hx
          · exact hx
          · exact absurd hx hkr
        subst hke
        rw [queryLoop_notMem fs now bp k rest (alistSet s k re) hkr, alistGet_set_self]
        rw [hr] at hb
        exact congrArg some (Except.ok.inj hb).symm

theorem queryLoop_append_error (fs : FS) (now : Nat) (bp : List String) (bad : String)
    (err : MetaError)
    (hbad : build_election_from_yaml fs now (bp ++ [bad]) = .error err) :
    ∀ (pre post : List String) (s : List (String × Record)),
      (∀ k ∈ pre, exceptOk (build_election_from_yaml fs now (bp ++ [k])) = true) →
      queryLoop fs now bp (pre ++ bad :: post) s = ((queryLoop fs now bp pre s).1, some err) := by
  intro pre
  induction pre with
  | nil =>
    intro post s _
    simp only [List.nil_append, queryLoop, hbad]
  | cons a pre ih =>
    intro post s hpre
    have ha := hpre a (List.mem_cons_self a pre)
    cases hb : build_election_from_yaml fs now (bp ++ [a]) with
    | error e2 => rw [hb] at ha; simp [exceptOk] at ha
    | ok ra =>
      simp only [List.cons_append, queryLoop, hb]
      exact ih post (alistSet s a ra) (fun x hx => hpre x (List.mem_cons_of_mem a hx))

theorem whereLoop_ok (field : String) (v : Value) :
    ∀ (l : List Record), (∀ r ∈ l, (alistGet r field).isSome = true) →
      whereLoop field v l = .ok (l.filter (matchesField field v)) := by
  intro l
  induction l with
  | nil => intro _; rfl
  | cons r rest ih =>
    intro h
    have hr := h r (List.mem_cons_self r rest)
    cases hw : alistGet r field with
    | none => rw [hw] at hr; simp at hr
    | some w =>
      have hrest := ih (fun x hx => h x (List.mem_cons_of_mem r hx))
      simp only [whereLoop, hw, hrest, List.filter_cons, matchesField]
      by_cases hwv : w = v
      · simp [hwv]
      · simp [hwv]

theorem candidatesLoop_skip (fs : FS) (extract : String → Record) (bp : List String)
    (eid f : String) (files : List String) (hf : containsSub f "candidate" = false) :
    candidatesLoop fs extract bp eid (f :: files) = candidatesLoop fs extract bp eid files := by
  simp only [candidatesLoop, hf]

theorem candidatesLoop_take (fs : FS) (extract : String → Record) (bp : List String)
    (eid f : String) (files : List String) (md : String) (idv : Value)
    (hf : containsSub f "candidate" = true)
    (hmd : fs.readFile (bp ++ [eid, f]) = some md)
    (hid : alistGet (extract md) "ID" = some idv) :
    candidatesLoop fs extract bp eid (f :: files) =
      match candidatesLoop fs extract bp eid files with
      | .error e => .error e
      | .ok rest => .ok (alistSet (extract md) "key" idv :: rest) := by
  simp only [candidatesLoop, hf, hmd, hid]

/-! ### Claim theorems -/

/-- C1: the claim states that for a known key with no cached record,
get returns the record obtained by directly parsing the directory of
the key, with the key field equal to the directory name. The code
violates this: fallback hands build_election_from_yaml the path
elections/e1/election.yaml, and the builder appends another
election.yaml component, so the fallback read of e1 parses
elections/e1/election.yaml/election.yaml — absent on a normally laid
out filesystem — and fails, while directly parsing the directory
elections/e1 succeeds and yields the record with key e1. The get call
on the known but uncached key e1 therefore errors instead of returning
that record. -/
theorem C1_fallback_bug :
    fallback fsC1 0 ["elections"] "e1" = .error .fileNotFound ∧
    build_election_from_yaml fsC1 0 ["elections", "e1"] = .ok builtE1 ∧
    alistGet builtE1 "key" = some (Value.str "e1") ∧
    get fsC1 0 ["elections"] { store := [], keys := ["e1"] } "e1" = .error .fileNotFound :=
  ⟨rfl, rfl, rfl, rfl⟩

/-- C2 (amended): update_store discards the outcome of the git fetch
step entirely — the result is the same function of the post-fetch
filesystem whether the fetch succeeded or failed, and the key-discovery
and record-refresh steps always run, replacing known keys with the
fresh directory listing. No fetch failure is surfaced to the caller. -/
theorem C2_sync_ignores_fetch (fs : FS) (now : Nat) (bp : List String) (st : ElectionStore) :
    (∀ fetchOk fetchOk2 : Bool,
        update_store fs fetchOk now bp st = update_store fs fetchOk2 now bp st) ∧
    (∀ fetchOk : Bool, (update_store fs fetchOk now bp st).1.keys = update_keys fs bp) :=
  ⟨fun _ _ => rfl, fun g => update_store_fst_keys fs g now bp st⟩

/-- C2 counterexample: a sync whose fetch step failed (flag false)
returns no error and still rebuilds the store from the on-disk state:
starting from an empty store, the call returns the refreshed store with
key e1, which differs from the pre-call store, and the error component
is none. This contradicts the claim that a failed fetch is surfaced as
an error and leaves known keys and records untouched. -/
theorem C2_counterexample :
    update_store fsC1 false 0 ["elections"] { store := [], keys := [] } =
      ({ store := [("e1", builtE1)], keys := ["e1"] }, none) ∧
    ({ store := [("e1", builtE1)], keys := ["e1"] } : ElectionStore) ≠
      { store := [], keys := [] } :=
  ⟨rfl, by decide⟩

/-- C3 (amended): when every record of all carries the field, where
returns exactly the subset whose field equals the value; a record
lacking the field makes the lookup raise KeyError instead of being
treated as a non-match. -/
theorem C3_where_filter (st : ElectionStore) (field : String) (v : Value)
    (h : ∀ r ∈ all st, (alistGet r field).isSome = true) :
    where_ st field v = .ok ((all st).filter (matchesField field v)) :=
  whereLoop_ok field v (all st) h

/-- C3 witness: on a store whose records all carry the field a, where
returns exactly the matching subset. -/
theorem C3_witness :
    (∀ r ∈ all stC3w, (alistGet r "a").isSome = true) ∧
    where_ stC3w "a" (Value.str "x") =
      .ok ((all stC3w).filter (matchesField "a" (Value.str "x"))) :=
  ⟨by decide, C3_where_filter stC3w "a" (Value.str "x") (by decide)⟩

/-- C3 counterexample: filtering on a field absent from a stored record
raises KeyError rather than excluding the record, contradicting the
claim that the equality check against an absent field never raises. -/
theorem C3_counterexample :
    where_ stC3c "b" (Value.str "x") = .error (.keyError "b") ∧
    (.error (.keyError "b") : Except MetaError (List Record)) ≠ .ok [] :=
  ⟨rfl, fun hh => Except.noConfusion hh⟩

/-- C4 (amended): after a sync whose parses all succeed, no error is
reported, known keys are replaced wholesale by the fresh directory
listing, and every fresh key maps to its freshly parsed record — but
the records map is merged into, not replaced: an entry whose key is
absent from the fresh listing keeps its old value. -/
theorem C4_refresh_merge (fs : FS) (g : Bool) (now : Nat) (bp : List String)
    (st : ElectionStore)
    (hok : ∀ e ∈ update_keys fs bp,
        exceptOk (build_election_from_yaml fs now (bp ++ [e])) = true) :
    (update_store fs g now bp st).2 = none ∧
    (update_store fs g now bp st).1.keys = update_keys fs bp ∧
    (∀ k r, k ∈ update_keys fs bp → build_election_from_yaml fs now (bp ++ [k]) = .ok r →
        alistGet (update_store fs g now bp st).1.store k = some r) ∧
    (∀ k, k ∉ update_keys fs bp →
        alistGet (update_store fs g now bp st).1.store k = alistGet st.store k) := by
  have hnone := queryLoop_no_error fs now bp (update_keys fs bp) st.store hok
  refine ⟨?_, update_store_fst_keys fs g now bp st, ?_, ?_⟩
  · rw [update_store_snd]; exact hnone
  · intro k r hk hr
    rw [update_store_fst_store]
    exact queryLoop_mem_ok fs now bp k r hr (update_keys fs bp) st.store hnone hk
  · intro k hk
    rw [update_store_fst_store]
    exact queryLoop_notMem fs now bp k (update_keys fs bp) st.store hk

/-- C4 witness: the refresh over fsC1 succeeds on every fresh key, so
the sync reports no error and replaces the known keys with the fresh
listing. -/
theorem C4_witness :
    (∀ e ∈ update_keys fsC1 ["elections"],
        exceptOk (build_election_from_yaml fsC1 0 (["elections"] ++ [e])) = true) ∧
    (update_store fsC1 true 0 ["elections"] stC4).2 = none ∧
    (update_store fsC1 true 0 ["elections"] stC4).1.keys = update_keys fsC1 ["elections"] :=
  ⟨by decide, (C4_refresh_merge fsC1 true 0 ["elections"] stC4 (by decide)).1,
    (C4_refresh_merge fsC1 true 0 ["elections"] stC4 (by decide)).2.1⟩

/-- C4 counterexample: after a successful sync over a listing that no
longer contains the key old, the record for old is still in the store,
contradicting the claim that the records map holds exactly one entry
per freshly discovered key with stale entries removed. -/
theorem C4_counterexample :
    ("old" ∉ update_keys fsC1 ["elections"]) ∧
    alistGet (update_store fsC1 true 0 ["elections"] stC4).1.store "old" = some rOld ∧
    (update_store fsC1 true 0 ["elections"] stC4).2 = none :=
  ⟨by decide, rfl, rfl⟩

/-- C5 (amended): when the keys split as pre ++ bad :: post, every key
of pre parses and bad fails with some error, the refresh propagates
exactly that error — but the records parsed before the failure are
already committed to the store: the snapshot is partially committed,
not rolled back. -/
theorem C5_partial_commit (fs : FS) (now : Nat) (bp : List String) (st : ElectionStore)
    (pre post : List String) (bad : String) (err : MetaError)
    (hkeys : st.keys = pre ++ bad :: post)
    (hpre : ∀ k ∈ pre, exceptOk (build_election_from_yaml fs now (bp ++ [k])) = true)
    (hbad : build_election_from_yaml fs now (bp ++ [bad]) = .error err) :
    (query fs now bp st).2 = some err ∧
    (∀ k r, k ∈ pre → build_election_from_yaml fs now (bp ++ [k]) = .ok r →
        alistGet (query fs now bp st).1.store k = some r) := by
  have hq : queryLoop fs now bp st.keys st.store =
      ((queryLoop fs now bp pre st.store).1, some err) := by
    rw [hkeys]
    exact queryLoop_append_error fs now bp bad err hbad pre post st.store hpre
  have hnone := queryLoop_no_error fs now bp pre st.store hpre
  constructor
  · rw [query_snd, hq]
  · intro k r hk hr
    rw [query_fst_store, hq]
    exact queryLoop_mem_ok fs now bp k r hr pre st.store hnone hk

/-- C5 witness: over fsC5 the key a parses, the key b fails with a
parse error, and the refresh reports exactly that error. -/
theorem C5_witness :
    (stC5.keys = ["a"] ++ "b" :: ([] : List String)) ∧
    (∀ k ∈ (["a"] : List String),
        exceptOk (build_election_from_yaml fsC5 0 (["elections"] ++ [k])) = true) ∧
    build_election_from_yaml fsC5 0 (["elections"] ++ ["b"]) = .error .parseError ∧
    (query fsC5 0 ["elections"] stC5).2 = some .parseError :=
  ⟨rfl, by decide, rfl,
    (C5_partial_commit fsC5 0 ["elections"] stC5 ["a"] [] "b" .parseError rfl
      (by decide) rfl).1⟩

/-- C5 counterexample: refreshing over keys a and b where b has
malformed YAML propagates the error, but the freshly parsed record for
a is already visible in the store, which held nothing before the
refresh — the records map is partially committed, contradicting the
claim that it is left as it was. -/
theorem C5_counterexample :
    (query fsC5 0 ["elections"] stC5).2 = some .parseError ∧
    alistGet (query fsC5 0 ["elections"] stC5).1.store "a" = some rA5 ∧
    alistGet stC5.store "a" = none :=
  ⟨rfl, rfl, rfl⟩

/-- C6: for a record whose boundaries are start_time = t1 and
end_time = t2 with t1 < t2, the derived status is UPCOMING exactly on
now < t1, ONGOING on t1 ≤ now ≤ t2 with both boundaries inclusive,
ENDED on now > t2, always one of the three; and every successful parse
recomputes the status field from now and the parsed record, storing
exactly check_election_status of them. The status computation is
modelled from the spec because utils.check_election_status is not under
src/. -/
theorem C6_status_trichotomy (t1 t2 now : Nat) (e : Record)
    (hlt : t1 < t2)
    (h1 : alistGet e "start_time" = some (Value.nat t1))
    (h2 : alistGet e "end_time" = some (Value.nat t2)) :
    (now < t1 → check_election_status now e = "UPCOMING") ∧
    (t1 ≤ now → now ≤ t2 → check_election_status now e = "ONGOING") ∧
    (t2 < now → check_election_status now e = "ENDED") ∧
    (check_election_status now e = "UPCOMING" ∨ check_election_status now e = "ONGOING" ∨
      check_election_status now e = "ENDED") ∧
    (∀ (fs : FS) (path : List String) (r : Record),
        fs.parseYaml (path ++ ["election.yaml"]) = .ok e →
        build_election_from_yaml fs now path = .ok r →
        alistGet r "status" = some (Value.str (check_election_status now e))) := by
  have hn1 : natField e "start_time" = t1 := by simp [natField, h1]
  have hn2 : natField e "end_time" = t2 := by simp [natField, h2]
  refine ⟨?_, ?_, ?_, ?_, ?_⟩
  · intro h
    unfold check_election_status
    rw [hn1, if_pos h]
  · intro ha hb
    unfold check_election_status
    rw [hn1, hn2, if_neg (by omega), if_pos hb]
  · intro h
    unfold check_election_status
    rw [hn1, hn2, if_neg (by omega), if_neg (by omega)]
  · unfold check_election_status
    rw [hn1, hn2]
    by_cases hc1 : now < t1
    · exact Or.inl (by rw [if_pos hc1])
    · by_cases hc2 : now ≤ t2
      · exact Or.inr (Or.inl (by rw [if_neg hc1, if_pos hc2]))
      · exact Or.inr (Or.inr (by rw [if_neg hc1, if_neg hc2]))
  · intro fs path r hp hb
    simp only [build_election_from_yaml, hp] at hb
    have hbr := Except.ok.inj hb
    subst hbr
    rw [alistGet_set_ne _ "results" "status" _ (by decide),
        alistGet_set_ne _ "description" "status" _ (by decide),
        alistGet_set_ne _ "key" "status" _ (by decide),
        alistGet_set_self]

/-- C6 witness: with boundaries 5 and 10 and now 7 the status is
ONGOING. -/
theorem C6_witness :
    (5 : Nat) < 10 ∧ (5 : Nat) ≤ 7 ∧ (7 : Nat) ≤ 10 ∧
    check_election_status 7 e6W = "ONGOING" :=
  ⟨by decide, by decide, by decide,
    (C6_status_trichotomy 5 10 7 e6W (by decide) rfl rfl).2.1 (by decide) (by decide)⟩

/-- C7: for every key not in the known keys, get aborts with the 404
not-found condition, whatever the records map and the filesystem
hold. -/
theorem C7_get_abort (fs : FS) (now : Nat) (bp : List String) (st : ElectionStore)
    (key : String) (h : key ∉ st.keys) :
    get fs now bp st key = .error .abort404 := by
  unfold get
  rw [if_pos h]

/-- C7 witness: the store even holds a record for e1, yet e1 is not a
known key, so get aborts 404. -/
theorem C7_witness :
    ("e1" ∉ stC7.keys) ∧ alistGet stC7.store "e1" = some builtE1 ∧
    get fsC1 0 ["elections"] stC7 "e1" = .error .abort404 :=
  ⟨by decide, rfl, C7_get_abort fsC1 0 ["elections"] stC7 "e1" (by decide)⟩

/-- C8: a get that takes the fallback path — known key, no cached
record — returns the fallback parse result and leaves the store state
unchanged: neither known keys nor records are mutated. -/
theorem C8_fallback_frame (fs : FS) (now : Nat) (bp : List String) (st : ElectionStore)
    (key : String) (h1 : key ∈ st.keys) (h2 : alistGet st.store key = none) :
    get fs now bp st key = (fallback fs now bp key).map (fun r => (r, st)) := by
  unfold get
  rw [if_neg (not_not_intro h1), h2]
  cases hf : fallback fs now bp key with
  | ok r => rfl
  | error e => rfl

/-- C8 witness: a fallback read on the known, uncached key e1 returns
the fallback result paired with the unchanged state. -/
theorem C8_witness :
    ("e1" ∈ stC8.keys) ∧ alistGet stC8.store "e1" = none ∧
    get fsC1 0 ["elections"] stC8 "e1" =
      (fallback fsC1 0 ["elections"] "e1").map (fun r => (r, stC8)) :=
  ⟨by decide, rfl, C8_fallback_frame fsC1 0 ["elections"] stC8 "e1" (by decide) rfl⟩

/-- C9 (amended): over a directory listing exactly candidate-1.md,
candidate-2.md and notes.md, candidates returns exactly two records —
notes.md is excluded because its name lacks the substring candidate —
and each record is keyed by the ID field that the candidate parser
extracts from the file content, so the keys are 1 and 2 exactly when
the two file contents declare those IDs. The content parser
utils.extract_candidate_info is not under src/ and is opaque here. -/
theorem C9_candidates_keys (fs : FS) (extract : String → Record) (bp : List String)
    (c1 c2 : String) (v1 v2 : Value)
    (hls : fs.listdir (bp ++ ["e1"]) = ["candidate-1.md", "candidate-2.md", "notes.md"])
    (h1 : fs.readFile (bp ++ ["e1", "candidate-1.md"]) = some c1)
    (h2 : fs.readFile (bp ++ ["e1", "candidate-2.md"]) = some c2)
    (hid1 : alistGet (extract c1) "ID" = some v1)
    (hid2 : alistGet (extract c2) "ID" = some v2) :
    candidates fs extract bp "e1" =
      .ok [alistSet (extract c1) "key" v1, alistSet (extract c2) "key" v2] ∧
    alistGet (alistSet (extract c1) "key" v1) "key" = some v1 ∧
    alistGet (alistSet (extract c2) "key" v2) "key" = some v2 := by
  refine ⟨?_, alistGet_set_self _ _ _, alistGet_set_self _ _ _⟩
  unfold candidates
  rw [hls]
  rw [candidatesLoop_take fs extract bp "e1" "candidate-1.md" ["candidate-2.md", "notes.md"]
      c1 v1 rfl h1 hid1]
  rw [candidatesLoop_take fs extract bp "e1" "candidate-2.md" ["notes.md"] c2 v2 rfl h2 hid2]
  rw [candidatesLoop_skip fs extract bp "e1" "notes.md" [] rfl]
  rfl

/-- C9 witness: with the two candidate files declaring IDs 1 and 2,
candidates returns exactly two records keyed 1 and 2, and notes.md
yields none. -/
theorem C9_witness :
    fsC9w.listdir (["elections"] ++ ["e1"]) =
      ["candidate-1.md", "candidate-2.md", "notes.md"] ∧
    candidates fsC9w extractById ["elections"] "e1" =
      .ok [alistSet (extractById "1") "key" (Value.str "1"),
           alistSet (extractById "2") "key" (Value.str "2")] :=
  ⟨rfl, (C9_candidates_keys fsC9w extractById ["elections"] "1" "2"
    (Value.str "1") (Value.str "2") rfl rfl rfl rfl rfl).1⟩

/-- C9 counterexample: the directory contains exactly candidate-1.md,
candidate-2.md and notes.md, yet the first returned record is keyed
zzz, the ID its content declares, not the 1 of its file name —
contradicting the claim that the records are keyed 1 and 2 with each
key identifying its candidate file. -/
theorem C9_counterexample :
    fsC9c.listdir (["elections"] ++ ["e1"]) =
      ["candidate-1.md", "candidate-2.md", "notes.md"] ∧
    candidates fsC9c extractById ["elections"] "e1" =
      .ok [[("ID", Value.str "zzz"), ("key", Value.str "zzz")],
           [("ID", Value.str "2"), ("key", Value.str "2")]] ∧
    Value.str "zzz" ≠ Value.str "1" ∧ Value.str "zzz" ≠ Value.str "2" :=
  ⟨rfl, rfl, by decide, by decide⟩

/-- C10: whenever candidate succeeds, the returned record carries a key
field equal to the requested candidate key, an election_key field equal
to the requested election key, and a description field rendered from
the candidate file content. The Markdown utilities are repository code
not under src/ and are opaque parameters here. -/
theorem C10_candidate_fields (fs : FS) (extract : String → Record)
    (renderText : String → Bool → String) (extractDesc : String → String)
    (bp : List String) (eid cid md : String) (r : Record)
    (hmd : fs.readFile (bp ++ [eid, "candidate-" ++ cid ++ ".md"]) = some md)
    (h : candidate fs extract renderText extractDesc bp eid cid = .ok r) :
    alistGet r "key" = some (Value.str cid) ∧
    alistGet r "election_key" = some (Value.str eid) ∧
    alistGet r "description" = some (Value.str (renderText (extractDesc md) false)) := by
  simp only [candidate, hmd] at h
  have hr2 := Except.ok.inj h
  subst hr2
  refine ⟨?_, ?_, alistGet_set_self _ _ _⟩
  · rw [alistGet_set_ne _ "description" "key" _ (by decide),
        alistGet_set_ne _ "election_key" "key" _ (by decide),
        alistGet_set_self]
  · rw [alistGet_set_ne _ "description" "election_key" _ (by decide),
        alistGet_set_self]

/-- C10 witness: the concrete candidate file candidate-3.md of election
e1 yields a record with key 3, election_key e1 and the rendered
description. -/
theorem C10_witness :
    fsC10.readFile (["elections"] ++ ["e1", "candidate-" ++ "3" ++ ".md"]) = some "md3" ∧
    candidate fsC10 extractById rTextW descW ["elections"] "e1" "3" = .ok rC10 ∧
    (alistGet rC10 "key" = some (Value.str "3") ∧
     alistGet rC10 "election_key" = some (Value.str "e1") ∧
     alistGet rC10 "description" = some (Value.str (rTextW (descW "md3") false))) :=
  ⟨rfl, rfl,
    C10_candidate_fields fsC10 extractById rTextW descW ["elections"] "e1" "3" "md3" rC10
      rfl rfl⟩

end Elekto
